import Mathlib

/-!
Verification of the nano-stats lifecycle specification.

The repository ships only the public header `include/nano_stats.h`, which
declares three operations:

  void* nano_stats_create(const char* title);
  void  nano_stats_run(void* app);    -- blocks until termination
  void  nano_stats_destroy(void* app);

The Application, Sampler, Formatter and loop bodies are not part of the
shipped sources, so the lifecycle machine below is modelled from the
specification (each such definition says so in its doc comment).  The run
loop is embedded as a fuel-indexed state machine over an environment of
collaborators (Stat Source, Display Sink, host termination channel), and
every externally observable behaviour is recorded as an event trace.
-/

namespace NanoStats

/-- Modelled from the spec: the Application lifecycle states
`Created → Running → Stopping → Stopped` (the implementation holding
them is not in the shipped sources, only the header is). -/
inductive LifecycleState
  | Created
  | Running
  | Stopping
  | Stopped
deriving DecidableEq, Repr

/-- Modelled from the spec: the synchronous error taxonomy surfaced to the
caller (`InvalidArgument` for a bad title at creation, `InvalidState` for
misordered lifecycle calls). -/
inductive ErrorCode
  | InvalidArgument
  | InvalidState
deriving DecidableEq, Repr

/-- Modelled from the spec: the recorded cause of a Termination Signal
(`SourceExhausted` after the failure budget, `HostTerminationRequested`
for a graceful external stop). -/
inductive TerminationKind
  | SourceExhausted
  | HostTerminationRequested
deriving DecidableEq, Repr

/-- Modelled from the spec: a Snapshot is an immutable record of metric
name/value pairs plus a capture timestamp, produced by the Stat Source on
each sampling tick. -/
structure Snapshot where
  metrics : List (String × Int)
  timestamp : Nat
deriving DecidableEq, Repr

/-- Observable events of one run: a sampling request to the Stat Source at
tick `t`, its success or recorded failure, and a Display Sink render or
its recorded failure. -/
inductive Event
  | sampleReq (t : Nat)
  | sampleOk (t : Nat)
  | sampleFail (t : Nat)
  | render (t : Nat) (line : String)
  | renderFail (t : Nat)
deriving DecidableEq, Repr

/-- The tick an event belongs to. -/
def evTick : Event → Nat
  | .sampleReq t => t
  | .sampleOk t => t
  | .sampleFail t => t
  | .render t _ => t
  | .renderFail t => t

/-- Modelled from the spec: the Application record — immutable title,
lifecycle state, the two independent consecutive-failure counters, the at
most one recorded termination cause, and aliveness flags for the owned
Sampler, Formatter and Display Sink handle. -/
structure Application where
  title : String
  state : LifecycleState
  srcFailures : Nat
  sinkFailures : Nat
  cause : Option TerminationKind
  sampler : Bool
  formatter : Bool
  sinkHandle : Bool
deriving DecidableEq, Repr

/-- Modelled from the spec: the environment of external collaborators —
the Stat Source (may fail, returning `none`), the Display Sink (may fail,
returning `false`), the asynchronous host termination channel (the
thread-safe flag raised from outside the loop thread), and the configured
consecutive-failure budget. -/
structure Env where
  source : Nat → Option Snapshot
  sink : String → Bool
  hostStop : Nat → Bool
  budget : Nat

/-- Modelled from the spec: the Formatter turns a raw snapshot into a
display string/label. -/
def format (s : Snapshot) : String :=
  String.intercalate " " (s.metrics.map (fun p => p.1 ++ ": " ++ toString p.2))

/-- Modelled from the spec: the host-side allocator state behind `create` —
the Display Sink's title length limit and the next fresh (nonzero) opaque
handle value. -/
structure Host where
  limit : Nat
  nextHandle : Nat
deriving DecidableEq, Repr

/-- A fresh host whose first handle is 1 (handle 0 plays the role of the
null reference). -/
def Host.fresh (limit : Nat) : Host :=
  { limit := limit, nextHandle := 1 }

/-- Modelled from the spec: the Application constructed by a successful
`create` — state `Created`, counters zero, no termination cause recorded,
all owned resources alive, no background work started. -/
def mkApplication (title : String) : Application :=
  { title := title
    state := .Created
    srcFailures := 0
    sinkFailures := 0
    cause := none
    sampler := true
    formatter := true
    sinkHandle := true }

/-- Modelled from the spec: `nano_stats_create` fails with
`InvalidArgument` when the title is empty or exceeds the host display's
length limit; on success it returns a fresh opaque handle, the new
Application in state `Created`, and the advanced host. -/
def nano_stats_create (h : Host) (title : String) :
    Except ErrorCode (Nat × Application × Host) :=
  if title.length = 0 ∨ h.limit < title.length then
    .error .InvalidArgument
  else
    .ok (h.nextHandle, mkApplication title, { h with nextHandle := h.nextHandle + 1 })

/-- Modelled from the spec: steps 1–3 of the run loop body — request a
Snapshot from the Stat Source; on failure bump the consecutive source
counter and escalate to a `SourceExhausted` Termination Signal once the
budget is reached; on success reset the source counter, format, and push
to the Display Sink, treating a sink failure identically to a source
failure with its own independent counter. -/
def sampleStep (env : Env) (t : Nat) (a : Application) : Application × List Event :=
  match env.source t with
  | none =>
    let f := a.srcFailures + 1
    if env.budget ≤ f then
      ({ a with srcFailures := f, state := .Stopping, cause := some .SourceExhausted },
       [Event.sampleReq t, Event.sampleFail t])
    else
      ({ a with srcFailures := f },
       [Event.sampleReq t, Event.sampleFail t])
  | some snap =>
    let line := format snap
    if env.sink line then
      ({ a with srcFailures := 0, sinkFailures := 0 },
       [Event.sampleReq t, Event.sampleOk t, Event.render t line])
    else
      let f := a.sinkFailures + 1
      if env.budget ≤ f then
        ({ a with srcFailures := 0, sinkFailures := f, state := .Stopping, cause := some .SourceExhausted },
         [Event.sampleReq t, Event.sampleOk t, Event.renderFail t])
      else
        ({ a with srcFailures := 0, sinkFailures := f },
         [Event.sampleReq t, Event.sampleOk t, Event.renderFail t])

/-- Modelled from the spec: step 4 of the run loop body — check for a
pending Termination Signal on the host channel; if present and the
Application is still `Running`, record `HostTerminationRequested` and
enter `Stopping` so that the loop exits before scheduling the next
tick. -/
def stopCheck (env : Env) (t : Nat) (a : Application) : Application :=
  if env.hostStop t = true ∧ a.state = .Running then
    { a with state := .Stopping, cause := some .HostTerminationRequested }
  else a

/-- Modelled from the spec: a full tick — steps 1–3 (`sampleStep`) then
the termination-channel check (`stopCheck`).  A tick does nothing unless
the Application is `Running`. -/
def tick (env : Env) (t : Nat) (a : Application) : Application × List Event :=
  if a.state = .Running then
    (stopCheck env t (sampleStep env t a).1, (sampleStep env t a).2)
  else (a, [])

/-- Modelled from the spec: the blocking run loop, indexed by fuel (the
number of scheduler slots observed; `none` means `run` is still blocked
after that many slots).  A pending `Stopping` state is finalised to
`Stopped` without scheduling a further tick; while `Running`, the strictly
sequential tick of index `t` executes to completion before tick `t + 1`
can start. -/
def loop (env : Env) : Nat → Nat → Application → Option Application × List Event
  | 0, _, _ => (none, [])
  | fuel + 1, t, a =>
    if a.state = .Stopping then
      (some { a with state := .Stopped }, [])
    else if a.state = .Running then
      ((loop env fuel (t + 1) (tick env t a).1).1,
       (tick env t a).2 ++ (loop env fuel (t + 1) (tick env t a).1).2)
    else
      (some a, [])

/-- Modelled from the spec: `nano_stats_run` requires state `Created`
(otherwise it fails with `InvalidState`, starting no loop), transitions to
`Running` and drives the loop; when the result is `some a'` the call has
returned with final Application `a'`, and `none` means it is still
blocked after `fuel` scheduler slots. -/
def nano_stats_run (env : Env) (fuel : Nat) (a : Application) :
    Except ErrorCode (Option Application × List Event) :=
  if a.state = .Created then
    .ok (loop env fuel 0 { a with state := .Running })
  else
    .error .InvalidState

/-- The caller-visible return of `run`: the C function returns `void`, so
a completed run carries no payload distinguishing its termination cause. -/
def runReturn (env : Env) (fuel : Nat) (a : Application) :
    Except ErrorCode (Option Unit) :=
  match nano_stats_run env fuel a with
  | .error e => .error e
  | .ok p => .ok (p.1.map fun _ => ())

/-- Which owned resources a `destroy` call released. -/
structure Released where
  sampler : Bool
  formatter : Bool
  sinkHandle : Bool
  record : Bool
deriving DecidableEq, Repr

/-- All four owned resources released. -/
def allReleased : Released :=
  { sampler := true, formatter := true, sinkHandle := true, record := true }

/-- Modelled from the spec: `nano_stats_destroy` releases the Sampler,
Formatter, Display Sink handle and the Application record itself; it is
valid in any state except `Running` (destroying while the loop is blocked
in `run` is a contract violation).  It emits no loop events: the
Sampler/Formatter/Display-Sink cycle is never invoked by teardown. -/
def nano_stats_destroy (a : Application) : Except ErrorCode Released × List Event :=
  if a.state = .Running then
    (.error .InvalidState, [])
  else
    (.ok { sampler := a.sampler, formatter := a.formatter,
           sinkHandle := a.sinkHandle, record := true }, [])

/-- Repeated creation against one host: the handles handed out by the
successful calls, in order, together with the final host. -/
def createMany (h : Host) : List String → List Nat × Host
  | [] => ([], h)
  | title :: rest =>
    match nano_stats_create h title with
    | .ok q =>
      (q.1 :: (createMany q.2.2 rest).1, (createMany q.2.2 rest).2)
    | .error _ => createMany h rest

/-- The single-step lifecycle transitions of the spec's state machine. -/
inductive LifeStep : LifecycleState → LifecycleState → Prop
  | create_run : LifeStep .Created .Running
  | run_stop : LifeStep .Running .Stopping
  | stop_done : LifeStep .Stopping .Stopped

/-- Reachability along the lifecycle order (reflexive-transitive closure
of `LifeStep`). -/
inductive Reaches : LifecycleState → LifecycleState → Prop
  | refl (s : LifecycleState) : Reaches s s
  | step {s s' s'' : LifecycleState} :
      LifeStep s s' → Reaches s' s'' → Reaches s s''

/-- A Stat Source that fails on every request, no host stop. -/
def envAlwaysFail (budget : Nat) : Env :=
  { source := fun _ => none
    sink := fun _ => true
    hostStop := fun _ => false
    budget := budget }

/-- A demonstration snapshot. -/
def snapDemo : Snapshot :=
  { metrics := [("cpu", 42)], timestamp := 0 }

/-- A healthy Stat Source and Display Sink; the host termination channel
is raised from tick `sigTick` on. -/
def envStopAt (budget sigTick : Nat) : Env :=
  { source := fun _ => some snapDemo
    sink := fun _ => true
    hostStop := fun t => decide (sigTick ≤ t)
    budget := budget }

/-- A Stat Source that fails on exactly the first `failures` ticks and
succeeds from then on; healthy sink, no host stop. -/
def envTransient (budget failures : Nat) : Env :=
  { source := fun t => if t < failures then none else some snapDemo
    sink := fun _ => true
    hostStop := fun _ => false
    budget := budget }

/-- Number of sampling requests in a trace. -/
def sampleCount (evs : List Event) : Nat :=
  (evs.filter fun e => match e with | .sampleReq _ => true | _ => false).length

/-- Number of sampling requests at tick `t` in a trace. -/
def sampleReqsAt (t : Nat) (evs : List Event) : Nat :=
  (evs.filter fun e => e = Event.sampleReq t).length

/-! ### Basic lemmas about one tick -/

theorem sampleStep_evTick (env : Env) (t : Nat) (a : Application) :
    ∀ e ∈ (sampleStep env t a).2, evTick e = t := by
  intro e he
  unfold sampleStep at he
  cases hs : env.source t with
  | none =>
    rw [hs] at he
    simp only at he
    split at he <;> simp only [List.mem_cons, List.not_mem_nil, or_false] at he <;>
      rcases he with rfl | rfl <;> rfl
  | some snap =>
    rw [hs] at he
    simp only at he
    split at he
    · simp only [List.mem_cons, List.not_mem_nil, or_false] at he
      rcases he with rfl | rfl | rfl <;> rfl
    · split at he <;> simp only [List.mem_cons, List.not_mem_nil, or_false] at he <;>
        rcases he with rfl | rfl | rfl <;> rfl

theorem sampleStep_state (env : Env) (t : Nat) (a : Application) :
    (sampleStep env t a).1.state = a.state ∨
      (sampleStep env t a).1.state = LifecycleState.Stopping := by
  unfold sampleStep
  cases hs : env.source t <;> simp only
  · split <;> simp
  · split
    · simp
    · split <;> simp

theorem stopCheck_state (env : Env) (t : Nat) (a : Application) :
    (stopCheck env t a).state = a.state ∨
      (stopCheck env t a).state = LifecycleState.Stopping := by
  unfold stopCheck
  split <;> simp

theorem tick_not_running (env : Env) (t : Nat) (a : Application)
    (h : a.state ≠ LifecycleState.Running) : tick env t a = (a, []) := by
  unfold tick
  simp [h]

theorem tick_evTick (env : Env) (t : Nat) (a : Application) :
    ∀ e ∈ (tick env t a).2, evTick e = t := by
  intro e he
  unfold tick at he
  split at he
  · exact sampleStep_evTick env t a e he
  · simp at he

theorem tick_state (env : Env) (t : Nat) (a : Application)
    (h : a.state = LifecycleState.Running) :
    (tick env t a).1.state = LifecycleState.Running ∨
      (tick env t a).1.state = LifecycleState.Stopping := by
  unfold tick
  rw [if_pos h]
  rcases stopCheck_state env t (sampleStep env t a).1 with h1 | h1
  · rw [h1]
    rcases sampleStep_state env t a with h2 | h2
    · rw [h2, h]
      left; rfl
    · rw [h2]; right; rfl
  · rw [h1]; right; rfl

theorem stopCheck_no_signal (env : Env) (t : Nat) (a : Application)
    (h : env.hostStop t = false) : stopCheck env t a = a := by
  unfold stopCheck
  rw [if_neg]
  intro hc
  rw [h] at hc
  exact Bool.false_ne_true hc.1

theorem stopCheck_srcFailures (env : Env) (t : Nat) (a : Application) :
    (stopCheck env t a).srcFailures = a.srcFailures := by
  unfold stopCheck
  split <;> rfl

theorem tick_counts_failure (env : Env) (t : Nat) (a : Application)
    (h : a.state = LifecycleState.Running) (hs : env.source t = none) :
    (tick env t a).1.srcFailures = a.srcFailures + 1 := by
  unfold tick
  rw [if_pos h]
  simp only
  rw [stopCheck_srcFailures]
  unfold sampleStep
  rw [hs]
  simp only
  split <;> rfl

theorem tick_resolves (env : Env) (t : Nat) (a : Application)
    (h : a.state = LifecycleState.Running) :
    Event.sampleFail t ∈ (tick env t a).2 ∨
      (∃ s, Event.render t s ∈ (tick env t a).2) ∨
      Event.renderFail t ∈ (tick env t a).2 := by
  unfold tick
  rw [if_pos h]
  simp only
  unfold sampleStep
  cases hs : env.source t with
  | none =>
    simp only
    split <;> simp
  | some snap =>
    simp only
    split
    · right; left
      exact ⟨format snap, by simp⟩
    · split <;> (right; right; simp)

/-! ### Lemmas about the run loop -/

theorem loop_zero (env : Env) (t : Nat) (a : Application) :
    loop env 0 t a = (none, []) := rfl

theorem loop_stopped_of_some (env : Env) :
    ∀ (fuel t : Nat) (a a' : Application),
      (a.state = LifecycleState.Running ∨ a.state = LifecycleState.Stopping) →
      (loop env fuel t a).1 = some a' → a'.state = LifecycleState.Stopped := by
  intro fuel
  induction fuel with
  | zero =>
    intro t a a' _ h
    simp [loop] at h
  | succ n ih =>
    intro t a a' hst h
    unfold loop at h
    split at h
    · simp only at h
      obtain rfl := Option.some.inj h
      rfl
    · split at h
      · simp only at h
        have h1 := tick_state env t a (by assumption)
        exact ih (t + 1) (tick env t a).1 a' h1 h
      · rcases hst with hst | hst <;> simp_all

theorem loop_evTick_ge (env : Env) :
    ∀ (fuel t : Nat) (a : Application), ∀ e ∈ (loop env fuel t a).2, t ≤ evTick e := by
  intro fuel
  induction fuel with
  | zero =>
    intro t a e he
    simp [loop] at he
  | succ n ih =>
    intro t a e he
    unfold loop at he
    split at he
    · simp at he
    · split at he
      · simp only [List.mem_append] at he
        rcases he with he | he
        · rw [tick_evTick env t a e he]
        · exact Nat.le_of_succ_le (ih (t + 1) (tick env t a).1 e he)
      · simp at he

theorem pairwise_of_const {l : List Event} {t : Nat} (h : ∀ e ∈ l, evTick e = t) :
    List.Pairwise (fun e₁ e₂ => evTick e₁ ≤ evTick e₂) l := by
  induction l with
  | nil => exact List.Pairwise.nil
  | cons x xs ih =>
    refine List.Pairwise.cons ?_ (ih fun e he => h e (List.mem_cons_of_mem _ he))
    intro e he
    rw [h x (List.mem_cons_self _ _), h e (List.mem_cons_of_mem _ he)]

theorem loop_pairwise (env : Env) :
    ∀ (fuel t : Nat) (a : Application),
      List.Pairwise (fun e₁ e₂ => evTick e₁ ≤ evTick e₂) (loop env fuel t a).2 := by
  intro fuel
  induction fuel with
  | zero =>
    intro t a
    simp [loop]
  | succ n ih =>
    intro t a
    unfold loop
    split
    · simp
    · split
      · simp only
        rw [List.pairwise_append]
        refine ⟨pairwise_of_const (tick_evTick env t a), ih (t + 1) (tick env t a).1, ?_⟩
        intro e1 he1 e2 he2
        rw [tick_evTick env t a e1 he1]
        exact Nat.le_of_succ_le (loop_evTick_ge env n (t + 1) (tick env t a).1 e2 he2)
      · simp

theorem sampleCount_append (l₁ l₂ : List Event) :
    sampleCount (l₁ ++ l₂) = sampleCount l₁ + sampleCount l₂ := by
  simp [sampleCount, List.filter_append]

theorem sampleReqsAt_append (t : Nat) (l₁ l₂ : List Event) :
    sampleReqsAt t (l₁ ++ l₂) = sampleReqsAt t l₁ + sampleReqsAt t l₂ := by
  simp [sampleReqsAt, List.filter_append]

theorem sampleReqsAt_eq_zero (evs : List Event) (t' : Nat)
    (h : ∀ e ∈ evs, evTick e ≠ t') : sampleReqsAt t' evs = 0 := by
  unfold sampleReqsAt
  rw [List.length_eq_zero, List.filter_eq_nil_iff]
  intro e he hc
  rw [decide_eq_true_eq] at hc
  exact h e he (by rw [hc]; rfl)

theorem tick_sampleReqsAt_self (env : Env) (t : Nat) (a : Application) :
    sampleReqsAt t (tick env t a).2 ≤ 1 := by
  unfold tick
  split
  · simp only
    unfold sampleStep
    cases hs : env.source t with
    | none =>
      simp only
      split <;> simp [sampleReqsAt, List.filter]
    | some snap =>
      simp only
      split
      · simp [sampleReqsAt, List.filter]
      · split <;> simp [sampleReqsAt, List.filter]
  · simp [sampleReqsAt]

theorem loop_sampleReqsAt (env : Env) :
    ∀ (fuel t : Nat) (a : Application) (t' : Nat),
      sampleReqsAt t' (loop env fuel t a).2 ≤ 1 := by
  intro fuel
  induction fuel with
  | zero =>
    intro t a t'
    simp [loop, sampleReqsAt]
  | succ n ih =>
    intro t a t'
    unfold loop
    split
    · simp [sampleReqsAt]
    · split
      · simp only
        rw [sampleReqsAt_append]
        by_cases ht : t' = t
        · subst ht
          have hrest : sampleReqsAt t' (loop env n (t' + 1) (tick env t' a).1).2 = 0 := by
            refine sampleReqsAt_eq_zero _ _ fun e he => ?_
            have := loop_evTick_ge env n (t' + 1) (tick env t' a).1 e he
            omega
          rw [hrest]
          have := tick_sampleReqsAt_self env t' a
          omega
        · have htick : sampleReqsAt t' (tick env t a).2 = 0 := by
            refine sampleReqsAt_eq_zero _ _ fun e he => ?_
            rw [tick_evTick env t a e he]
            omega
          rw [htick]
          have := ih (t + 1) (tick env t a).1 t'
          omega
      · simp [sampleReqsAt]

theorem loop_resolves (env : Env) :
    ∀ (fuel t₀ : Nat) (a : Application) (t : Nat), t₀ ≤ t →
      Event.sampleReq (t + 1) ∈ (loop env fuel t₀ a).2 →
      Event.sampleFail t ∈ (loop env fuel t₀ a).2 ∨
        (∃ s, Event.render t s ∈ (loop env fuel t₀ a).2) ∨
        Event.renderFail t ∈ (loop env fuel t₀ a).2 := by
  intro fuel
  induction fuel with
  | zero =>
    intro t₀ a t _ hmem
    simp [loop] at hmem
  | succ n ih =>
    intro t₀ a t ht hmem
    by_cases hstop : a.state = LifecycleState.Stopping
    · unfold loop at hmem
      rw [if_pos hstop] at hmem
      simp at hmem
    · by_cases hrun : a.state = LifecycleState.Running
      · unfold loop at hmem ⊢
        rw [if_neg hstop, if_pos hrun] at hmem ⊢
        simp only [List.mem_append] at hmem ⊢
        rcases hmem with hmem | hmem
        · exfalso
          have := tick_evTick env t₀ a _ hmem
          simp [evTick] at this
          omega
        · rcases Nat.lt_or_ge t₀ t with hlt | hge
          · rcases ih (t₀ + 1) (tick env t₀ a).1 t hlt hmem with hr | ⟨s, hr⟩ | hr
            · exact Or.inl (Or.inr hr)
            · exact Or.inr (Or.inl ⟨s, Or.inr hr⟩)
            · exact Or.inr (Or.inr (Or.inr hr))
          · have hteq : t₀ = t := Nat.le_antisymm ht hge
            subst hteq
            rcases tick_resolves env t₀ a hrun with hr | ⟨s, hr⟩ | hr
            · exact Or.inl (Or.inl hr)
            · exact Or.inr (Or.inl ⟨s, Or.inl hr⟩)
            · exact Or.inr (Or.inr (Or.inl hr))
      · unfold loop at hmem
        rw [if_neg hstop, if_neg hrun] at hmem
        simp at hmem

/-! ### Loop unfolding helpers -/

theorem loop_succ (env : Env) (fuel t : Nat) (a : Application) :
    loop env (fuel + 1) t a =
      if a.state = LifecycleState.Stopping then
        (some { a with state := .Stopped }, [])
      else if a.state = LifecycleState.Running then
        ((loop env fuel (t + 1) (tick env t a).1).1,
         (tick env t a).2 ++ (loop env fuel (t + 1) (tick env t a).1).2)
      else (some a, []) := rfl

theorem loop_running (env : Env) (fuel t : Nat) (a : Application)
    (hrun : a.state = LifecycleState.Running) :
    loop env (fuel + 1) t a =
      ((loop env fuel (t + 1) (tick env t a).1).1,
       (tick env t a).2 ++ (loop env fuel (t + 1) (tick env t a).1).2) := by
  rw [loop_succ, if_neg (by simp [hrun]), if_pos hrun]

theorem loop_stopping (env : Env) (fuel t : Nat) (a : Application)
    (hstop : a.state = LifecycleState.Stopping) :
    loop env (fuel + 1) t a = (some { a with state := .Stopped }, []) := by
  rw [loop_succ, if_pos hstop]

/-! ### Tick behaviour in the concrete environments -/

theorem tick_alwaysFail_continue (N t : Nat) (a : Application)
    (hrun : a.state = LifecycleState.Running) (hb : a.srcFailures + 1 < N) :
    tick (envAlwaysFail N) t a =
      ({ a with srcFailures := a.srcFailures + 1 },
       [Event.sampleReq t, Event.sampleFail t]) := by
  simp [tick, sampleStep, stopCheck, envAlwaysFail, hrun, Nat.not_le.mpr hb]

theorem tick_alwaysFail_exhaust (N t : Nat) (a : Application)
    (hrun : a.state = LifecycleState.Running) (hb : N ≤ a.srcFailures + 1) :
    tick (envAlwaysFail N) t a =
      ({ a with srcFailures := a.srcFailures + 1, state := .Stopping, cause := some .SourceExhausted },
       [Event.sampleReq t, Event.sampleFail t]) := by
  simp [tick, sampleStep, stopCheck, envAlwaysFail, hrun, hb]

theorem tick_stopAt_before (N T t : Nat) (a : Application)
    (hrun : a.state = LifecycleState.Running) (ht : t < T) :
    tick (envStopAt N T) t a =
      ({ a with srcFailures := 0, sinkFailures := 0 },
       [Event.sampleReq t, Event.sampleOk t, Event.render t (format snapDemo)]) := by
  simp [tick, sampleStep, stopCheck, envStopAt, hrun, Nat.not_le.mpr ht]

theorem tick_stopAt_at (N T t : Nat) (a : Application)
    (hrun : a.state = LifecycleState.Running) (ht : T ≤ t) :
    tick (envStopAt N T) t a =
      ({ a with srcFailures := 0, sinkFailures := 0, state := .Stopping, cause := some .HostTerminationRequested },
       [Event.sampleReq t, Event.sampleOk t, Event.render t (format snapDemo)]) := by
  simp [tick, sampleStep, stopCheck, envStopAt, hrun, ht]

theorem tick_transient_fail (N K t : Nat) (a : Application)
    (hrun : a.state = LifecycleState.Running) (ht : t < K)
    (hb : a.srcFailures + 1 < N) :
    tick (envTransient N K) t a =
      ({ a with srcFailures := a.srcFailures + 1 },
       [Event.sampleReq t, Event.sampleFail t]) := by
  simp [tick, sampleStep, stopCheck, envTransient, hrun, ht, Nat.not_le.mpr hb]

theorem tick_transient_ok (N K t : Nat) (a : Application)
    (hrun : a.state = LifecycleState.Running) (ht : K ≤ t) :
    tick (envTransient N K) t a =
      ({ a with srcFailures := 0, sinkFailures := 0 },
       [Event.sampleReq t, Event.sampleOk t, Event.render t (format snapDemo)]) := by
  simp [tick, sampleStep, stopCheck, envTransient, hrun, Nat.not_lt.mpr ht]

/-! ### Loop behaviour in the concrete environments -/

theorem loop_alwaysFail (N : Nat) :
    ∀ (d : Nat), 1 ≤ d → ∀ (fuel t : Nat) (a : Application),
      a.state = LifecycleState.Running → a.srcFailures + d = N → d + 1 ≤ fuel →
      ∃ a', (loop (envAlwaysFail N) fuel t a).1 = some a' ∧
        a'.state = LifecycleState.Stopped ∧
        a'.cause = some TerminationKind.SourceExhausted ∧
        sampleCount (loop (envAlwaysFail N) fuel t a).2 = d := by
  intro d
  induction d with
  | zero => exact fun h => absurd h (by omega)
  | succ d ih =>
    intro _ fuel t a hrun hsum hfuel
    obtain ⟨f1, rfl⟩ : ∃ f, fuel = f + 1 := ⟨fuel - 1, by omega⟩
    rw [loop_running _ _ _ _ hrun]
    by_cases hd : d = 0
    · subst hd
      rw [tick_alwaysFail_exhaust N t a hrun (by omega)]
      obtain ⟨f2, rfl⟩ : ∃ f, f1 = f + 1 := ⟨f1 - 1, by omega⟩
      rw [loop_stopping _ _ _ _ rfl]
      exact ⟨_, rfl, rfl, rfl, rfl⟩
    · rw [tick_alwaysFail_continue N t a hrun (by omega)]
      dsimp only
      obtain ⟨a', h1, h2, h3, h4⟩ :=
        ih (by omega) f1 (t + 1) { a with srcFailures := a.srcFailures + 1 }
          hrun (by show a.srcFailures + 1 + d = N; omega) (by omega)
      refine ⟨a', h1, h2, h3, ?_⟩
      rw [sampleCount_append, h4,
        show sampleCount [Event.sampleReq t, Event.sampleFail t] = 1 from rfl]
      omega

theorem loop_stopAt (N T : Nat) :
    ∀ (d fuel t : Nat) (a : Application),
      a.state = LifecycleState.Running → t + d = T → d + 2 ≤ fuel →
      ∃ a', (loop (envStopAt N T) fuel t a).1 = some a' ∧
        a'.state = LifecycleState.Stopped ∧
        a'.cause = some TerminationKind.HostTerminationRequested ∧
        a'.sampler = a.sampler ∧ a'.formatter = a.formatter ∧
        a'.sinkHandle = a.sinkHandle ∧
        sampleCount (loop (envStopAt N T) fuel t a).2 = d + 1 := by
  intro d
  induction d with
  | zero =>
    intro fuel t a hrun hsum hfuel
    obtain ⟨f1, rfl⟩ : ∃ f, fuel = f + 1 := ⟨fuel - 1, by omega⟩
    rw [loop_running _ _ _ _ hrun]
    rw [tick_stopAt_at N T t a hrun (by omega)]
    obtain ⟨f2, rfl⟩ : ∃ f, f1 = f + 1 := ⟨f1 - 1, by omega⟩
    rw [loop_stopping _ _ _ _ rfl]
    exact ⟨_, rfl, rfl, rfl, rfl, rfl, rfl, rfl⟩
  | succ d ih =>
    intro fuel t a hrun hsum hfuel
    obtain ⟨f1, rfl⟩ : ∃ f, fuel = f + 1 := ⟨fuel - 1, by omega⟩
    rw [loop_running _ _ _ _ hrun]
    rw [tick_stopAt_before N T t a hrun (by omega)]
    dsimp only
    obtain ⟨a', h1, h2, h3, h4, h5, h6, h7⟩ :=
      ih f1 (t + 1) { a with srcFailures := 0, sinkFailures := 0 } hrun
        (by omega) (by omega)
    refine ⟨a', h1, h2, h3, h4, h5, h6, ?_⟩
    rw [sampleCount_append, h7, show
      sampleCount [Event.sampleReq t, Event.sampleOk t,
        Event.render t (format snapDemo)] = 1 from rfl]
    omega

theorem loop_transient_live (N K : Nat) :
    ∀ (fuel t : Nat) (a : Application), K ≤ t →
      a.state = LifecycleState.Running →
      (loop (envTransient N K) fuel t a).1 = none := by
  intro fuel
  induction fuel with
  | zero => intro t a _ _; rfl
  | succ n ih =>
    intro t a hK hrun
    rw [loop_running _ _ _ _ hrun]
    rw [tick_transient_ok N K t a hrun hK]
    dsimp only
    exact ih (t + 1) _ (by omega) hrun

theorem loop_transient_render_head (N K fuel : Nat) (a : Application)
    (hrun : a.state = LifecycleState.Running) (hf : 1 ≤ fuel) :
    Event.render K (format snapDemo) ∈ (loop (envTransient N K) fuel K a).2 := by
  obtain ⟨f1, rfl⟩ : ∃ f, fuel = f + 1 := ⟨fuel - 1, by omega⟩
  rw [loop_running _ _ _ _ hrun]
  rw [tick_transient_ok N K K a hrun (Nat.le_refl K)]
  simp

theorem loop_transient (N K : Nat) (hKN : K < N) :
    ∀ (d fuel t : Nat) (a : Application),
      t + d = K → a.state = LifecycleState.Running → a.srcFailures = t →
      (loop (envTransient N K) fuel t a).1 = none ∧
      (d + 1 ≤ fuel →
        Event.render K (format snapDemo) ∈ (loop (envTransient N K) fuel t a).2) := by
  intro d
  induction d with
  | zero =>
    intro fuel t a hsum hrun _
    obtain rfl : t = K := by omega
    exact ⟨loop_transient_live N t fuel t a (Nat.le_refl t) hrun,
      fun hf => loop_transient_render_head N t fuel a hrun hf⟩
  | succ d ih =>
    intro fuel t a hsum hrun hsrc
    cases fuel with
    | zero => exact ⟨rfl, fun hf => absurd hf (by omega)⟩
    | succ n =>
      rw [loop_running _ _ _ _ hrun]
      rw [tick_transient_fail N K t a hrun (by omega) (by omega)]
      dsimp only
      obtain ⟨h1, h2⟩ :=
        ih n (t + 1) { a with srcFailures := a.srcFailures + 1 } (by omega) hrun
          (by show a.srcFailures + 1 = t + 1; omega)
      refine ⟨h1, fun hf => ?_⟩
      simp only [List.mem_append]
      exact Or.inr (h2 (by omega))

/-! ### Run-level helpers -/

theorem run_returns_stopped (env : Env) (fuel : Nat) (a : Application)
    (p : Option Application × List Event) (a' : Application)
    (hok : nano_stats_run env fuel a = .ok p) (hsome : p.1 = some a') :
    a'.state = LifecycleState.Stopped := by
  unfold nano_stats_run at hok
  split at hok
  · obtain rfl := Except.ok.inj hok
    exact loop_stopped_of_some env fuel 0 _ a' (Or.inl rfl) hsome
  · cases hok

theorem tick_reaches (env : Env) (t : Nat) (a : Application) :
    Reaches a.state (tick env t a).1.state := by
  by_cases hrun : a.state = LifecycleState.Running
  · rcases tick_state env t a hrun with h | h
    · rw [h, hrun]
      exact Reaches.refl _
    · rw [h, hrun]
      exact Reaches.step LifeStep.run_stop (Reaches.refl _)
  · rw [tick_not_running env t a hrun]
    exact Reaches.refl _

/-! ### Handle-allocation lemmas -/

theorem createMany_cons_ok (h : Host) (title : String) (rest : List String)
    (hv : ¬(title.length = 0 ∨ h.limit < title.length)) :
    createMany h (title :: rest) =
      (h.nextHandle :: (createMany { h with nextHandle := h.nextHandle + 1 } rest).1,
       (createMany { h with nextHandle := h.nextHandle + 1 } rest).2) := by
  have hc : nano_stats_create h title =
      .ok (h.nextHandle, mkApplication title, { h with nextHandle := h.nextHandle + 1 }) := by
    unfold nano_stats_create
    rw [if_neg hv]
  conv_lhs => unfold createMany
  rw [hc]

theorem createMany_cons_err (h : Host) (title : String) (rest : List String)
    (hv : title.length = 0 ∨ h.limit < title.length) :
    createMany h (title :: rest) = createMany h rest := by
  have hc : nano_stats_create h title = .error .InvalidArgument := by
    unfold nano_stats_create
    rw [if_pos hv]
  conv_lhs => unfold createMany
  rw [hc]

theorem createMany_mono : ∀ (titles : List String) (h : Host),
    h.nextHandle ≤ (createMany h titles).2.nextHandle := by
  intro titles
  induction titles with
  | nil => intro h; exact Nat.le_refl _
  | cons title rest ih =>
    intro h
    by_cases hv : title.length = 0 ∨ h.limit < title.length
    · rw [createMany_cons_err h title rest hv]
      exact ih h
    · rw [createMany_cons_ok h title rest hv]
      dsimp only
      have h2 : h.nextHandle + 1 ≤
          (createMany { h with nextHandle := h.nextHandle + 1 } rest).2.nextHandle :=
        ih { h with nextHandle := h.nextHandle + 1 }
      omega

theorem createMany_bounds : ∀ (titles : List String) (h : Host) (n : Nat),
    n ∈ (createMany h titles).1 →
    h.nextHandle ≤ n ∧ n < (createMany h titles).2.nextHandle := by
  intro titles
  induction titles with
  | nil =>
    intro h n hn
    simp [createMany] at hn
  | cons title rest ih =>
    intro h n hn
    by_cases hv : title.length = 0 ∨ h.limit < title.length
    · rw [createMany_cons_err h title rest hv] at hn ⊢
      exact ih h n hn
    · rw [createMany_cons_ok h title rest hv] at hn ⊢
      dsimp only at hn ⊢
      simp only [List.mem_cons] at hn
      rcases hn with rfl | hn
      · have h2 : h.nextHandle + 1 ≤
            (createMany { h with nextHandle := h.nextHandle + 1 } rest).2.nextHandle :=
          createMany_mono rest { h with nextHandle := h.nextHandle + 1 }
        exact ⟨Nat.le_refl _, by omega⟩
      · obtain ⟨hl, hr⟩ := ih { h with nextHandle := h.nextHandle + 1 } n hn
        have hl' : h.nextHandle + 1 ≤ n := hl
        exact ⟨by omega, hr⟩

theorem createMany_nodup : ∀ (titles : List String) (h : Host),
    (createMany h titles).1.Nodup := by
  intro titles
  induction titles with
  | nil =>
    intro h
    simp [createMany]
  | cons title rest ih =>
    intro h
    by_cases hv : title.length = 0 ∨ h.limit < title.length
    · rw [createMany_cons_err h title rest hv]
      exact ih h
    · rw [createMany_cons_ok h title rest hv]
      dsimp only
      refine List.nodup_cons.mpr ⟨?_, ih _⟩
      intro hmem
      obtain ⟨hl, _⟩ := createMany_bounds rest { h with nextHandle := h.nextHandle + 1 }
        h.nextHandle hmem
      have hl' : h.nextHandle + 1 ≤ h.nextHandle := hl
      omega

/-! ### Claim theorems -/

/-- C1: calling `run` on a handle whose lifecycle state is not `Created`
fails with `InvalidState` — uniformly in the environment and the fuel, so
no loop is started and no blocking occurs — and in particular a handle on
which `run` has completed is `Stopped`, so a second `run` call fails with
`InvalidState` and starts no second sampling/rendering loop. -/
theorem claim_C1_run_invalid_state :
    (∀ (env : Env) (fuel : Nat) (a : Application),
       a.state ≠ LifecycleState.Created →
       nano_stats_run env fuel a = .error .InvalidState) ∧
    (∀ (env : Env) (fuel : Nat) (a : Application)
       (p : Option Application × List Event) (a' : Application),
       nano_stats_run env fuel a = .ok p → p.1 = some a' →
       ∀ (env' : Env) (fuel' : Nat),
         nano_stats_run env' fuel' a' = .error .InvalidState) := by
  have hbase : ∀ (env : Env) (fuel : Nat) (a : Application),
      a.state ≠ LifecycleState.Created →
      nano_stats_run env fuel a = .error .InvalidState := by
    intro env fuel a h
    unfold nano_stats_run
    rw [if_neg h]
  refine ⟨hbase, ?_⟩
  intro env fuel a p a' hok hsome env' fuel'
  have hstop := run_returns_stopped env fuel a p a' hok hsome
  exact hbase env' fuel' a' (by rw [hstop]; intro hc; cases hc)

/-- Witness for C1: a handle in state `Stopped` is refused by `run`. -/
theorem claim_C1_witness :
    nano_stats_run (envAlwaysFail 1) 3
      { mkApplication "t" with state := LifecycleState.Stopped } =
      .error .InvalidState :=
  claim_C1_run_invalid_state.1 (envAlwaysFail 1) 3
    { mkApplication "t" with state := LifecycleState.Stopped } (by decide)

/-- C2: the lifecycle only advances along the order
`Created → Running → Stopping → Stopped`: a tick moves the state only
along `LifeStep` reachability, `Stopped` is terminal (no `LifeStep`
leaves it, and a tick leaves a `Stopped` Application untouched), and
`run` returns only upon the instance reaching `Stopped`. -/
theorem claim_C2_lifecycle_order :
    (∀ (env : Env) (t : Nat) (a : Application),
       Reaches a.state (tick env t a).1.state) ∧
    (∀ s : LifecycleState, ¬ LifeStep LifecycleState.Stopped s) ∧
    (∀ (env : Env) (t : Nat) (a : Application),
       a.state = LifecycleState.Stopped → tick env t a = (a, [])) ∧
    (∀ (env : Env) (fuel : Nat) (a : Application)
       (p : Option Application × List Event) (a' : Application),
       nano_stats_run env fuel a = .ok p → p.1 = some a' →
       a'.state = LifecycleState.Stopped) := by
  refine ⟨tick_reaches, ?_, ?_, run_returns_stopped⟩
  · intro s hc
    cases hc
  · intro env t a h
    exact tick_not_running env t a (by rw [h]; intro hc; cases hc)

/-- Witness for C2: concrete instances of all four conjuncts. -/
theorem claim_C2_witness :
    Reaches (mkApplication "t").state
      ((tick (envAlwaysFail 1) 0 (mkApplication "t")).1.state) ∧
    ¬ LifeStep LifecycleState.Stopped LifecycleState.Created ∧
    tick (envAlwaysFail 1) 0
        { mkApplication "t" with state := LifecycleState.Stopped } =
      ({ mkApplication "t" with state := LifecycleState.Stopped }, []) ∧
    ({ mkApplication "t" with
        state := LifecycleState.Stopped
        srcFailures := 1
        cause := some TerminationKind.SourceExhausted } : Application).state =
      LifecycleState.Stopped :=
  ⟨claim_C2_lifecycle_order.1 (envAlwaysFail 1) 0 (mkApplication "t"),
   claim_C2_lifecycle_order.2.1 LifecycleState.Created,
   claim_C2_lifecycle_order.2.2.1 (envAlwaysFail 1) 0
     { mkApplication "t" with state := LifecycleState.Stopped } rfl,
   claim_C2_lifecycle_order.2.2.2 (envAlwaysFail 1) 2 (mkApplication "t")
     (some { mkApplication "t" with
        state := LifecycleState.Stopped
        srcFailures := 1
        cause := some TerminationKind.SourceExhausted },
      [Event.sampleReq 0, Event.sampleFail 0])
     { mkApplication "t" with
        state := LifecycleState.Stopped
        srcFailures := 1
        cause := some TerminationKind.SourceExhausted }
     rfl rfl⟩

/-- C3: with a Stat Source that fails on every request and failure budget
`N ≥ 1`, `run` terminates via a `SourceExhausted` Termination Signal
after exactly `N` sampling requests: for every sufficient fuel the
returned trace holds exactly `N` samples, so the loop stops neither
before the budget is reached nor any number of ticks after it. -/
theorem claim_C3_source_exhausted (N fuel : Nat) (title : String)
    (hN : 1 ≤ N) (hfuel : N + 1 ≤ fuel) :
    ∃ (a' : Application) (evs : List Event),
      nano_stats_run (envAlwaysFail N) fuel (mkApplication title) =
        .ok (some a', evs) ∧
      a'.state = LifecycleState.Stopped ∧
      a'.cause = some TerminationKind.SourceExhausted ∧
      sampleCount evs = N := by
  unfold nano_stats_run
  rw [if_pos (show (mkApplication title).state = LifecycleState.Created from rfl)]
  obtain ⟨a', h1, h2, h3, h4⟩ :=
    loop_alwaysFail N N hN fuel 0
      { mkApplication title with state := LifecycleState.Running }
      rfl (show 0 + N = N by omega) hfuel
  refine ⟨a',
    (loop (envAlwaysFail N) fuel 0
      { mkApplication title with state := LifecycleState.Running }).2,
    ?_, h2, h3, h4⟩
  rw [← h1]

/-- Witness for C3: budget 2, fuel 4. -/
theorem claim_C3_witness :
    ∃ (a' : Application) (evs : List Event),
      nano_stats_run (envAlwaysFail 2) 4 (mkApplication "cpu") =
        .ok (some a', evs) ∧
      a'.state = LifecycleState.Stopped ∧
      a'.cause = some TerminationKind.SourceExhausted ∧
      sampleCount evs = 2 :=
  claim_C3_source_exhausted 2 4 "cpu" (by decide) (by decide)

/-- C4: if the Stat Source fails on exactly the first `K` ticks with `K`
strictly below the failure budget `N` and succeeds from then on, the run
never terminates on account of those failures (`run` stays blocked, the
loop result is `none`, for every fuel), and as soon as at least `K + 1`
ticks have been scheduled the trace contains a successful render of the
snapshot taken at tick `K`. -/
theorem claim_C4_transient_liveness (N K : Nat) (title : String)
    (hKN : K < N) :
    ∀ fuel : Nat, ∃ evs : List Event,
      nano_stats_run (envTransient N K) fuel (mkApplication title) =
        .ok (none, evs) ∧
      (K + 1 ≤ fuel → Event.render K (format snapDemo) ∈ evs) := by
  intro fuel
  unfold nano_stats_run
  rw [if_pos (show (mkApplication title).state = LifecycleState.Created from rfl)]
  obtain ⟨h1, h2⟩ :=
    loop_transient N K hKN K fuel 0
      { mkApplication title with state := LifecycleState.Running }
      (by omega) rfl (show (0 : Nat) = 0 from rfl)
  refine ⟨(loop (envTransient N K) fuel 0
    { mkApplication title with state := LifecycleState.Running }).2, ?_, h2⟩
  rw [← h1]

/-- Witness for C4: budget 3, two initial failures, three ticks of fuel. -/
theorem claim_C4_witness :
    ∃ evs : List Event,
      nano_stats_run (envTransient 3 1) 3 (mkApplication "m") =
        .ok (none, evs) ∧
      (1 + 1 ≤ 3 → Event.render 1 (format snapDemo) ∈ evs) :=
  claim_C4_transient_liveness 3 1 "m" (by decide) 3

/-- C5: ticks are strictly sequential and totally ordered — in every
trace `run` produces, events are sorted by their tick (so everything of
tick `N`, including its render or recorded failure, precedes everything
of tick `N + 1`), each tick issues at most one sampling request (no two
sampling calls in flight concurrently), and whenever snapshot `N + 1` is
requested the trace already contains tick `N`'s render or recorded
failure. -/
theorem claim_C5_ticks_sequential (env : Env) (fuel : Nat) (a : Application)
    (p : Option Application × List Event)
    (hok : nano_stats_run env fuel a = .ok p) :
    List.Pairwise (fun e₁ e₂ => evTick e₁ ≤ evTick e₂) p.2 ∧
    (∀ t, sampleReqsAt t p.2 ≤ 1) ∧
    (∀ t, Event.sampleReq (t + 1) ∈ p.2 →
      Event.sampleFail t ∈ p.2 ∨ (∃ s, Event.render t s ∈ p.2) ∨
        Event.renderFail t ∈ p.2) := by
  unfold nano_stats_run at hok
  split at hok
  · obtain rfl := Except.ok.inj hok
    exact ⟨loop_pairwise env fuel 0 _,
      fun t => loop_sampleReqsAt env fuel 0 _ t,
      fun t hm => loop_resolves env fuel 0 _ t (Nat.zero_le t) hm⟩
  · cases hok

/-- Witness for C5: the two-tick trace of an exhausting run. -/
theorem claim_C5_witness :
    List.Pairwise (fun e₁ e₂ => evTick e₁ ≤ evTick e₂)
      ((some { mkApplication "t" with
          state := LifecycleState.Stopped
          srcFailures := 2
          cause := some TerminationKind.SourceExhausted },
        [Event.sampleReq 0, Event.sampleFail 0, Event.sampleReq 1,
         Event.sampleFail 1]) : Option Application × List Event).2 ∧
    (∀ t, sampleReqsAt t
      [Event.sampleReq 0, Event.sampleFail 0, Event.sampleReq 1,
       Event.sampleFail 1] ≤ 1) ∧
    (∀ t, Event.sampleReq (t + 1) ∈
        [Event.sampleReq 0, Event.sampleFail 0, Event.sampleReq 1,
         Event.sampleFail 1] →
      Event.sampleFail t ∈
        [Event.sampleReq 0, Event.sampleFail 0, Event.sampleReq 1,
         Event.sampleFail 1] ∨
      (∃ s, Event.render t s ∈
        [Event.sampleReq 0, Event.sampleFail 0, Event.sampleReq 1,
         Event.sampleFail 1]) ∨
      Event.renderFail t ∈
        [Event.sampleReq 0, Event.sampleFail 0, Event.sampleReq 1,
         Event.sampleFail 1]) :=
  claim_C5_ticks_sequential (envAlwaysFail 2) 3 (mkApplication "t")
    (some { mkApplication "t" with
        state := LifecycleState.Stopped
        srcFailures := 2
        cause := some TerminationKind.SourceExhausted },
     [Event.sampleReq 0, Event.sampleFail 0, Event.sampleReq 1,
      Event.sampleFail 1])
    rfl

/-- C6: for every non-empty title within the host display's limit,
`create` succeeds and returns the host's next handle — nonzero, i.e. not
the null reference — advancing the counter; and across any sequence of
`create` calls against a host whose counter starts at least at 1, the
successful calls hand out pairwise distinct nonzero handles. -/
theorem claim_C6_create_distinct :
    (∀ (h : Host) (title : String), 1 ≤ h.nextHandle →
       title.length ≠ 0 → title.length ≤ h.limit →
       nano_stats_create h title =
         .ok (h.nextHandle, mkApplication title,
              { h with nextHandle := h.nextHandle + 1 }) ∧
       h.nextHandle ≠ 0) ∧
    (∀ (titles : List String) (h : Host), 1 ≤ h.nextHandle →
       (createMany h titles).1.Nodup ∧
       ∀ n ∈ (createMany h titles).1, n ≠ 0) := by
  constructor
  · intro h title h1 hne hle
    refine ⟨?_, by omega⟩
    unfold nano_stats_create
    rw [if_neg]
    intro hc
    rcases hc with hc | hc
    · exact hne hc
    · omega
  · intro titles h h1
    refine ⟨createMany_nodup titles h, fun n hn => ?_⟩
    obtain ⟨hl, _⟩ := createMany_bounds titles h n hn
    omega

/-- Witness for C6: a fresh host handing out handles 1, 2 for two valid
titles. -/
theorem claim_C6_witness :
    (nano_stats_create (Host.fresh 8) "cpu" =
       .ok ((Host.fresh 8).nextHandle, mkApplication "cpu",
            { Host.fresh 8 with nextHandle := (Host.fresh 8).nextHandle + 1 }) ∧
     (Host.fresh 8).nextHandle ≠ 0) ∧
    ((createMany (Host.fresh 8) ["a", "bb"]).1.Nodup ∧
     ∀ n ∈ (createMany (Host.fresh 8) ["a", "bb"]).1, n ≠ 0) :=
  ⟨claim_C6_create_distinct.1 (Host.fresh 8) "cpu" (by decide) (by decide)
     (by decide),
   claim_C6_create_distinct.2 ["a", "bb"] (Host.fresh 8) (by decide)⟩

/-- C7: `create` fails with `InvalidArgument` whenever the title is empty
or exceeds the host display's length limit, and on such failure no
Application instance is constructed (there is no successful payload, so
no background work can have started). -/
theorem claim_C7_create_invalid_argument (h : Host) (title : String)
    (hbad : title.length = 0 ∨ h.limit < title.length) :
    nano_stats_create h title = .error .InvalidArgument ∧
    ∀ (n : Nat) (a : Application) (h' : Host),
      nano_stats_create h title ≠ .ok (n, a, h') := by
  have he : nano_stats_create h title = .error .InvalidArgument := by
    unfold nano_stats_create
    rw [if_pos hbad]
  refine ⟨he, fun n a h' hc => ?_⟩
  rw [he] at hc
  cases hc

/-- Witness for C7: the empty title is rejected. -/
theorem claim_C7_witness :
    nano_stats_create (Host.fresh 5) "" = .error .InvalidArgument :=
  (claim_C7_create_invalid_argument (Host.fresh 5) "" (by decide)).1

/-- C8: if the host raises the Termination Signal at tick `T` on the
asynchronous channel (the one sanctioned cross-thread path) while `run`
is blocked, `run` returns within one tick period — the in-flight tick `T`
completes and tick `T + 1` is never sampled, so the trace holds exactly
`T + 1` sampling requests — with the host cause recorded, and a
subsequent `destroy` succeeds and releases all four owned resources. -/
theorem claim_C8_stop_latency_destroy (N T fuel : Nat) (title : String)
    (hfuel : T + 2 ≤ fuel) :
    ∃ (a' : Application) (evs : List Event),
      nano_stats_run (envStopAt N T) fuel (mkApplication title) =
        .ok (some a', evs) ∧
      a'.state = LifecycleState.Stopped ∧
      a'.cause = some TerminationKind.HostTerminationRequested ∧
      sampleCount evs = T + 1 ∧
      nano_stats_destroy a' = (.ok allReleased, []) := by
  unfold nano_stats_run
  rw [if_pos (show (mkApplication title).state = LifecycleState.Created from rfl)]
  obtain ⟨a', h1, h2, h3, h4, h5, h6, h7⟩ :=
    loop_stopAt N T T fuel 0
      { mkApplication title with state := LifecycleState.Running }
      rfl (by omega) hfuel
  refine ⟨a',
    (loop (envStopAt N T) fuel 0
      { mkApplication title with state := LifecycleState.Running }).2,
    ?_, h2, h3, h7, ?_⟩
  · rw [← h1]
  · have hs : a'.sampler = true := h4
    have hf2 : a'.formatter = true := h5
    have hk : a'.sinkHandle = true := h6
    unfold nano_stats_destroy
    rw [if_neg (by rw [h2]; intro hc; cases hc), hs, hf2, hk]
    rfl

/-- Witness for C8: signal at tick 1, budget 5, fuel 4. -/
theorem claim_C8_witness :
    ∃ (a' : Application) (evs : List Event),
      nano_stats_run (envStopAt 5 1) 4 (mkApplication "x") =
        .ok (some a', evs) ∧
      a'.state = LifecycleState.Stopped ∧
      a'.cause = some TerminationKind.HostTerminationRequested ∧
      sampleCount evs = 1 + 1 ∧
      nano_stats_destroy a' = (.ok allReleased, []) :=
  claim_C8_stop_latency_destroy 5 1 4 "x" (by decide)

/-- C9: transient per-tick failures are swallowed and counted internally —
a failed sample while `Running` only increments the consecutive-failure
counter — and are never surfaced synchronously: the only error `run` ever
returns is the `InvalidState` entry violation, and the caller-visible
return of a `SourceExhausted` termination is identical to that of a
graceful host stop, so the two cannot be distinguished through the return
of `run` alone. -/
theorem claim_C9_failures_swallowed :
    (∀ (env : Env) (fuel : Nat) (a : Application) (e : ErrorCode),
       runReturn env fuel a = .error e →
       e = ErrorCode.InvalidState ∧ a.state ≠ LifecycleState.Created) ∧
    (∀ (env : Env) (t : Nat) (a : Application),
       a.state = LifecycleState.Running → env.source t = none →
       (tick env t a).1.srcFailures = a.srcFailures + 1) ∧
    (∀ (N T fuelE fuelS : Nat) (title : String),
       1 ≤ N → N + 1 ≤ fuelE → T + 2 ≤ fuelS →
       runReturn (envAlwaysFail N) fuelE (mkApplication title) =
         .ok (some ()) ∧
       runReturn (envStopAt N T) fuelS (mkApplication title) =
         .ok (some ()) ∧
       runReturn (envAlwaysFail N) fuelE (mkApplication title) =
         runReturn (envStopAt N T) fuelS (mkApplication title)) := by
  refine ⟨?_, tick_counts_failure, ?_⟩
  · intro env fuel a e h
    unfold runReturn nano_stats_run at h
    by_cases hc : a.state = LifecycleState.Created
    · rw [if_pos hc] at h
      cases h
    · rw [if_neg hc] at h
      obtain rfl := Except.error.inj h
      exact ⟨rfl, hc⟩
  · intro N T fuelE fuelS title hN hfE hfS
    obtain ⟨a1, h1, _, _, _⟩ :=
      loop_alwaysFail N N hN fuelE 0
        { mkApplication title with state := LifecycleState.Running }
        rfl (show 0 + N = N by omega) hfE
    obtain ⟨a2, g1, _, _, _, _, _, _⟩ :=
      loop_stopAt N T T fuelS 0
        { mkApplication title with state := LifecycleState.Running }
        rfl (by omega) hfS
    have hE : nano_stats_run (envAlwaysFail N) fuelE (mkApplication title) =
        .ok (some a1, (loop (envAlwaysFail N) fuelE 0
          { mkApplication title with state := LifecycleState.Running }).2) := by
      unfold nano_stats_run
      rw [if_pos (show (mkApplication title).state = LifecycleState.Created from rfl),
        ← h1]
    have hS : nano_stats_run (envStopAt N T) fuelS (mkApplication title) =
        .ok (some a2, (loop (envStopAt N T) fuelS 0
          { mkApplication title with state := LifecycleState.Running }).2) := by
      unfold nano_stats_run
      rw [if_pos (show (mkApplication title).state = LifecycleState.Created from rfl),
        ← g1]
    have e1 : runReturn (envAlwaysFail N) fuelE (mkApplication title) =
        .ok (some ()) := by
      unfold runReturn
      rw [hE]
      rfl
    have e2 : runReturn (envStopAt N T) fuelS (mkApplication title) =
        .ok (some ()) := by
      unfold runReturn
      rw [hS]
      rfl
    exact ⟨e1, e2, by rw [e1, e2]⟩

/-- Witness for C9: concrete instances of all three conjuncts. -/
theorem claim_C9_witness :
    (ErrorCode.InvalidState = ErrorCode.InvalidState ∧
     ({ mkApplication "t" with state := LifecycleState.Stopped } :
        Application).state ≠ LifecycleState.Created) ∧
    ((tick (envAlwaysFail 2) 0
        { mkApplication "t" with state := LifecycleState.Running }).1.srcFailures =
      ({ mkApplication "t" with state := LifecycleState.Running } :
        Application).srcFailures + 1) ∧
    (runReturn (envAlwaysFail 2) 4 (mkApplication "t") = .ok (some ()) ∧
     runReturn (envStopAt 2 1) 4 (mkApplication "t") = .ok (some ()) ∧
     runReturn (envAlwaysFail 2) 4 (mkApplication "t") =
       runReturn (envStopAt 2 1) 4 (mkApplication "t")) :=
  ⟨claim_C9_failures_swallowed.1 (envAlwaysFail 1) 2
     { mkApplication "t" with state := LifecycleState.Stopped }
     ErrorCode.InvalidState rfl,
   claim_C9_failures_swallowed.2.1 (envAlwaysFail 2) 0
     { mkApplication "t" with state := LifecycleState.Running } rfl rfl,
   claim_C9_failures_swallowed.2.2 2 1 4 4 "t" (by decide) (by decide)
     (by decide)⟩

/-- C10: `destroy` succeeds exactly in the lifecycle states other than
`Running`, and destroying a handle fresh from `create` — never passed to
`run` — releases all four owned resources (Sampler, Formatter, Display
Sink handle, Application record) while emitting no sampling, formatting
or rendering event at all. -/
theorem claim_C10_destroy_frame :
    (∀ a : Application,
       (∃ r, (nano_stats_destroy a).1 = .ok r) ↔
         a.state ≠ LifecycleState.Running) ∧
    (∀ title : String,
       nano_stats_destroy (mkApplication title) = (.ok allReleased, [])) := by
  constructor
  · intro a
    constructor
    · rintro ⟨r, hr⟩ hrun
      unfold nano_stats_destroy at hr
      rw [if_pos hrun] at hr
      cases hr
    · intro hrun
      refine ⟨{ sampler := a.sampler, formatter := a.formatter,
                sinkHandle := a.sinkHandle, record := true }, ?_⟩
      unfold nano_stats_destroy
      rw [if_neg hrun]
  · intro title
    unfold nano_stats_destroy
    rw [if_neg (show ¬(mkApplication title).state = LifecycleState.Running
      from fun hc => by cases hc)]
    rfl

/-- Witness for C10: destroying a `Stopped` handle is valid, and a fresh
never-run handle is torn down with all resources released and no cycle
events. -/
theorem claim_C10_witness :
    ((∃ r, (nano_stats_destroy
        { mkApplication "t" with state := LifecycleState.Stopped }).1 =
          .ok r) ↔
      ({ mkApplication "t" with state := LifecycleState.Stopped } :
        Application).state ≠ LifecycleState.Running) ∧
    nano_stats_destroy (mkApplication "u") = (.ok allReleased, []) :=
  ⟨claim_C10_destroy_frame.1
     { mkApplication "t" with state := LifecycleState.Stopped },
   claim_C10_destroy_frame.2 "u"⟩

end NanoStats
